import Mathlib

/-!
Verification of the Tradium constant-product AMM core
(`src/tradium/src/instructions/{swap,deposit,withdraw,initialize_pool,shared}.rs`
and `src/tradium/src/state/tradium.rs`).

The Rust code is shallowly embedded: u64 values are natural numbers, every
`checked_*` operation is an `Except` computation that fails with
`Err.MathOverflow` exactly when the Rust `Option` would be `None`, the u128
arithmetic of `withdraw` is modelled with a `2 ^ 128` bound and the final
`as u64` cast as `% 2 ^ 64`, and the unchecked u64 additions inside
`integer_sqrt` wrap modulo `2 ^ 64` with a division-by-zero panic modelled as
`Err.runtimePanic`.
-/


/-- 2 ^ 64, the modulus of Rust u64 arithmetic. -/
def U64 : Nat := 18446744073709551616

/-- 2 ^ 128, the modulus of Rust u128 arithmetic. -/
def U128 : Nat := 340282366920938463463374607431768211456

/-- The `TradiumError` variants reached by the embedded code
(`src/tradium/src/error.rs`), plus `runtimePanic` for a Rust panic
(integer overflow / division by zero outside any `checked_*` call) and
`transferFailed` for a failing token-program CPI. -/
inductive Err where
  | MathOverflow
  | InvalidSwapDirection
  | InvalidInputAmount
  | InvalidTokenProgram
  | InsufficientLiquidity
  | SlippageExceeded
  | InvalidDepositAmount
  | InvalidCoinTokenProgram
  | InvalidPcTokenProgram
  | InvalidCoinVault
  | InvalidPcVault
  | InvalidLpMint
  | InvalidCoinMint
  | InvalidPcMint
  | InsufficientLiquidityMinted
  | InvalidAmount
  | InsufficientBalance
  | EmptyPool
  | InsufficientWithdrawal
  | InvalidTransferHookProgram
  | InvalidPoolState
  | runtimePanic
  | transferFailed
deriving DecidableEq, Repr

/-- Rust `u64::checked_add` followed by `ok_or(MathOverflow)`. -/
def checkedAdd (a b : Nat) : Except Err Nat :=
  if a + b < U64 then Except.ok (a + b) else Except.error Err.MathOverflow

/-- Rust `u8::checked_add` followed by `ok_or(MathOverflow)` (the pool nonce
is stored as `[u8; 1]`). -/
def checkedAdd8 (a b : Nat) : Except Err Nat :=
  if a + b < 256 then Except.ok (a + b) else Except.error Err.MathOverflow

/-- Rust `u64::checked_sub` followed by `ok_or(MathOverflow)`. -/
def checkedSub (a b : Nat) : Except Err Nat :=
  if b ≤ a then Except.ok (a - b) else Except.error Err.MathOverflow

/-- Rust `u64::checked_mul` followed by `ok_or(MathOverflow)`. -/
def checkedMul (a b : Nat) : Except Err Nat :=
  if a * b < U64 then Except.ok (a * b) else Except.error Err.MathOverflow

/-- Rust `checked_div` followed by `ok_or(MathOverflow)`; it fails only on a
zero divisor. -/
def checkedDiv (a b : Nat) : Except Err Nat :=
  if b = 0 then Except.error Err.MathOverflow else Except.ok (a / b)

/-- Rust `u128::checked_mul` followed by `ok_or(MathOverflow)`. -/
def checkedMul128 (a b : Nat) : Except Err Nat :=
  if a * b < U128 then Except.ok (a * b) else Except.error Err.MathOverflow

/-- Anchor `require!(cond, err)`. -/
def req (c : Prop) [Decidable c] (e : Err) : Except Err Unit :=
  if c then Except.ok () else Except.error e

deriving instance DecidableEq for Except

/-- `swap_coin_to_pc` (src/tradium/src/instructions/swap.rs, lines 196-236):
fee-adjusted constant-product output for a coin → pc swap, all arithmetic in
checked u64. -/
def swap_coin_to_pc (amount_in coin_balance pc_balance fee_numerator fee_denominator : Nat) :
    Except Err Nat := do
  let d ← checkedSub fee_denominator fee_numerator
  let m ← checkedMul amount_in d
  let amount_in_after_fee ← checkedDiv m fee_denominator
  let new_coin_balance ← checkedAdd coin_balance amount_in_after_fee
  let m2 ← checkedMul amount_in_after_fee pc_balance
  let amount_out ← checkedDiv m2 new_coin_balance
  let _ ← req (amount_out ≤ pc_balance) Err.InsufficientLiquidity
  pure amount_out

/-- `swap_pc_to_coin` (src/tradium/src/instructions/swap.rs, lines 238-278):
fee-adjusted constant-product output for a pc → coin swap. -/
def swap_pc_to_coin (amount_in coin_balance pc_balance fee_numerator fee_denominator : Nat) :
    Except Err Nat := do
  let d ← checkedSub fee_denominator fee_numerator
  let m ← checkedMul amount_in d
  let amount_in_after_fee ← checkedDiv m fee_denominator
  let new_pc_balance ← checkedAdd pc_balance amount_in_after_fee
  let m2 ← checkedMul amount_in_after_fee coin_balance
  let amount_out ← checkedDiv m2 new_pc_balance
  let _ ← req (amount_out ≤ coin_balance) Err.InsufficientLiquidity
  pure amount_out

/-- `Fees` (src/tradium/src/state/tradium.rs, lines 50-60). -/
structure Fees where
  min_separate_numerator : Nat
  min_separate_denominator : Nat
  trade_fee_numerator : Nat
  trade_fee_denominator : Nat
  pnl_numerator : Nat
  pnl_denominator : Nat
  swap_fee_numerator : Nat
  swap_fee_denominator : Nat
deriving DecidableEq, Repr

/-- `Tradium` pool state (src/tradium/src/state/tradium.rs, lines 6-48).
Pubkeys are abstract natural-number identifiers; the `[u8; 1]` nonce is the
single byte `nonce`; `state_data` is reduced to its only field touched by the
embedded instructions (`initialized`); the order-book configuration scalars
are carried verbatim. -/
structure Tradium where
  status : Nat
  nonce : Nat
  order_num : Nat
  depth : Nat
  coin_decimals : Nat
  pc_decimals : Nat
  state : Nat
  reset_flag : Nat
  min_size : Nat
  vol_max_cut_ratio : Nat
  amount_wave : Nat
  coin_lot_size : Nat
  pc_lot_size : Nat
  min_price_multiplier : Nat
  max_price_multiplier : Nat
  sys_decimal_value : Nat
  fees : Fees
  state_data_initialized : Bool
  coin_vault : Nat
  pc_vault : Nat
  coin_vault_mint : Nat
  pc_vault_mint : Nat
  lp_mint : Nat
  coin_token_program : Nat
  pc_token_program : Nat
  whitelisted_transfer_hooks : List Nat
  num_whitelisted_hooks : Nat
  amm_owner : Nat
  lp_amount : Nat
deriving DecidableEq, Repr

/-- The live balances read at the start of each transition: the two vault
token accounts and the LP mint supply, alongside the pool record. -/
structure AmmState where
  pool : Tradium
  coinVault : Nat
  pcVault : Nat
  lpSupply : Nat
deriving DecidableEq, Repr

/-- What the hook gate reads from a mint account: which token program owns
it, whether its data unpacks as a Token-2022 mint with extensions, and the
transfer-hook program id declared by the extension when one is present. -/
structure MintDesc where
  isToken2022 : Bool
  unpackOk : Bool
  transferHook : Option Nat
deriving DecidableEq, Repr

/-- `validate_transfer_hook_program`
(src/tradium/src/instructions/swap.rs, lines 147-194; the variant shared by
deposit/withdraw in src/tradium/src/instructions/shared.rs, lines 71-118,
decides the hook-present case identically): admit or deny the optionally
supplied hook program for one mint. -/
def validate_transfer_hook_program (mint : MintDesc) (hookProg : Option Nat)
    (whitelisted_hooks : List Nat) (num_whitelisted : Nat) : Bool :=
  if mint.isToken2022 then
    if mint.unpackOk then
      match mint.transferHook with
      | some hookId =>
        match hookProg with
        | some provided =>
          if provided ≠ hookId then false
          else (List.range num_whitelisted).any fun i =>
            whitelisted_hooks.getD i 0 == hookId
        | none => false
      | none => hookProg.isNone
    else false
  else hookProg.isNone

/-- The Anchor account constraint wrapping the gate: a `false` verdict
surfaces as `InvalidTransferHookProgram`. -/
def hookGateCheck (mint : MintDesc) (hookProg : Option Nat)
    (whitelisted_hooks : List Nat) (num_whitelisted : Nat) : Except Err Unit :=
  req (validate_transfer_hook_program mint hookProg whitelisted_hooks num_whitelisted = true)
    Err.InvalidTransferHookProgram

/-- The `while y < x` loop of `integer_sqrt`
(src/tradium/src/instructions/deposit.rs, lines 263-266), with the u64
addition `x + n / x` wrapping modulo `2 ^ 64` and the division panicking when
`x = 0`. The fuel argument only makes the recursion structural; every call
made by `integer_sqrt` carries enough fuel (`x` strictly decreases). -/
def sqrtIter : Nat → Nat → Nat → Except Err Nat
  | 0, _, _ => Except.error Err.runtimePanic
  | fuel + 1, n, x =>
    if x = 0 then Except.error Err.runtimePanic
    else
      let y := (x + n / x) % U64 / 2
      if y < x then sqrtIter fuel n y else Except.ok x

/-- `integer_sqrt` (src/tradium/src/instructions/deposit.rs, lines 255-269):
Newton iteration `x := n`, `y := (x + 1) / 2`, then `while y < x { x := y;
y := (x + n / x) / 2 }`; the initial `x + 1` wraps modulo `2 ^ 64`. -/
def integer_sqrt (n : Nat) : Except Err Nat :=
  if n = 0 then Except.ok 0
  else
    let y := (n + 1) % U64 / 2
    if y < n then sqrtIter n n y else Except.ok n

/-- `normalize_amount` (src/tradium/src/instructions/deposit.rs, lines
243-253). The Rust `10_u64.pow(k)` is an unchecked u64 computation: when
`10 ^ k` exceeds u64 it wraps modulo `2 ^ 64` (a release build; with
overflow checks it panics and aborts instead), so the power is taken
modulo `2 ^ 64` here. -/
def normalize_amount (amount token_decimals sys_decimals : Nat) : Except Err Nat :=
  if token_decimals ≤ sys_decimals then
    checkedMul amount (10 ^ (sys_decimals - token_decimals) % U64)
  else
    checkedDiv amount (10 ^ (token_decimals - sys_decimals) % U64)

/-- `calculate_lp_tokens` (src/tradium/src/instructions/deposit.rs, lines
194-241): geometric-mean genesis issuance when the LP supply is zero,
otherwise the minimum of the two proportional shares, in checked u64. -/
def calculate_lp_tokens (pool : Tradium) (amount_coin amount_pc
    coin_vault_balance_before pc_vault_balance_before total_lp_supply : Nat) :
    Except Err Nat :=
  if total_lp_supply = 0 then do
    let coin_amount_normalized ←
      normalize_amount amount_coin pool.coin_decimals pool.sys_decimal_value
    let pc_amount_normalized ←
      normalize_amount amount_pc pool.pc_decimals pool.sys_decimal_value
    let m ← checkedMul coin_amount_normalized pc_amount_normalized
    integer_sqrt m
  else do
    let coin_share ←
      if 0 < coin_vault_balance_before ∧ 0 < amount_coin then do
        let m ← checkedMul amount_coin total_lp_supply
        checkedDiv m coin_vault_balance_before
      else pure 0
    let pc_share ←
      if 0 < pc_vault_balance_before ∧ 0 < amount_pc then do
        let m ← checkedMul amount_pc total_lp_supply
        checkedDiv m pc_vault_balance_before
      else pure 0
    pure (min coin_share pc_share)

/-- The caller-supplied accounts and arguments of `deposit`, as abstract
identifiers and u64 amounts. -/
structure DepositArgs where
  coinTokenProgram : Nat
  pcTokenProgram : Nat
  coinVaultKey : Nat
  pcVaultKey : Nat
  lpMintKey : Nat
  coinMintKey : Nat
  pcMintKey : Nat
  amountCoin : Nat
  amountPc : Nat
deriving DecidableEq, Repr

/-- `deposit` (src/tradium/src/instructions/deposit.rs, lines 67-192):
validation, ingress of both amounts, LP calculation on the pre-transfer
balances, mint of the shares, then `lp_amount` and nonce updates (the nonce
is the `[u8; 1]` byte, incremented with `u8::checked_add`). -/
def depositStep (st : AmmState) (a : DepositArgs) : Except Err AmmState := do
  let _ ← req (0 < a.amountCoin ∨ 0 < a.amountPc) Err.InvalidDepositAmount
  let _ ← req (a.coinTokenProgram = st.pool.coin_token_program) Err.InvalidCoinTokenProgram
  let _ ← req (a.pcTokenProgram = st.pool.pc_token_program) Err.InvalidPcTokenProgram
  let _ ← req (a.coinVaultKey = st.pool.coin_vault) Err.InvalidCoinVault
  let _ ← req (a.pcVaultKey = st.pool.pc_vault) Err.InvalidPcVault
  let _ ← req (a.lpMintKey = st.pool.lp_mint) Err.InvalidLpMint
  let _ ← req (a.coinMintKey = st.pool.coin_vault_mint) Err.InvalidCoinMint
  let _ ← req (a.pcMintKey = st.pool.pc_vault_mint) Err.InvalidPcMint
  let lp ← calculate_lp_tokens st.pool a.amountCoin a.amountPc
    st.coinVault st.pcVault st.lpSupply
  let _ ← req (0 < lp) Err.InsufficientLiquidityMinted
  let newLpAmount ← checkedAdd st.pool.lp_amount lp
  let newNonce ← checkedAdd8 st.pool.nonce 1
  pure { pool := { st.pool with lp_amount := newLpAmount, nonce := newNonce }
         coinVault := st.coinVault + a.amountCoin
         pcVault := st.pcVault + a.amountPc
         lpSupply := st.lpSupply + lp }

/-- The caller-supplied accounts and arguments of `withdraw`. -/
structure WithdrawArgs where
  coinTokenProgram : Nat
  pcTokenProgram : Nat
  lpAmount : Nat
  userLpBalance : Nat
deriving DecidableEq, Repr

/-- The proportional redemption arithmetic of `withdraw`
(src/tradium/src/instructions/withdraw.rs, lines 143-153): u128 multiply and
divide, then the `as u64` narrowing casts. -/
def withdraw_amounts (coin_vault_balance pc_vault_balance lp_amount total_lp_supply : Nat) :
    Except Err (Nat × Nat) := do
  let m1 ← checkedMul128 coin_vault_balance lp_amount
  let coin_amount ← checkedDiv m1 total_lp_supply
  let m2 ← checkedMul128 pc_vault_balance lp_amount
  let pc_amount ← checkedDiv m2 total_lp_supply
  pure (coin_amount % U64, pc_amount % U64)

/-- `withdraw` (src/tradium/src/instructions/withdraw.rs, lines 115-263):
validation, proportional u128 redemption, burn of the shares, then the two
egress transfers. The pool record itself is returned unchanged: the handler
updates neither `lp_amount` nor the nonce. -/
def withdrawStep (st : AmmState) (a : WithdrawArgs) : Except Err AmmState := do
  let _ ← req (0 < a.lpAmount) Err.InvalidAmount
  let _ ← req (a.lpAmount ≤ a.userLpBalance) Err.InsufficientBalance
  let _ ← req (a.coinTokenProgram = st.pool.coin_token_program) Err.InvalidCoinTokenProgram
  let _ ← req (a.pcTokenProgram = st.pool.pc_token_program) Err.InvalidPcTokenProgram
  let _ ← req (0 < st.lpSupply) Err.EmptyPool
  let amounts ← withdraw_amounts st.coinVault st.pcVault a.lpAmount st.lpSupply
  let _ ← req (0 < amounts.1) Err.InsufficientWithdrawal
  let _ ← req (0 < amounts.2) Err.InsufficientWithdrawal
  let _ ← req (amounts.1 ≤ st.coinVault) Err.transferFailed
  let _ ← req (amounts.2 ≤ st.pcVault) Err.transferFailed
  pure { st with
         coinVault := st.coinVault - amounts.1
         pcVault := st.pcVault - amounts.2
         lpSupply := st.lpSupply - a.lpAmount }

/-- The caller-supplied accounts and arguments of `swap`. -/
structure SwapArgs where
  inputTokenProgram : Nat
  outputTokenProgram : Nat
  amountIn : Nat
  minimumAmountOut : Nat
  swapDirection : Nat
deriving DecidableEq, Repr

/-- `swap` (src/tradium/src/instructions/swap.rs, lines 82-145): direction
and amount validation, token-program checks, the directional pricing kernel,
slippage check, gross ingress of `amount_in` and egress of `amount_out`,
then the nonce increment. -/
def swapStep (st : AmmState) (a : SwapArgs) : Except Err AmmState := do
  let _ ← req (a.swapDirection ≤ 1) Err.InvalidSwapDirection
  let _ ← req (0 < a.amountIn) Err.InvalidInputAmount
  let inputExpected :=
    if a.swapDirection = 0 then st.pool.coin_token_program else st.pool.pc_token_program
  let outputExpected :=
    if a.swapDirection = 0 then st.pool.pc_token_program else st.pool.coin_token_program
  let _ ← req (a.inputTokenProgram = inputExpected) Err.InvalidTokenProgram
  let _ ← req (a.outputTokenProgram = outputExpected) Err.InvalidTokenProgram
  let amountOut ←
    if a.swapDirection = 0 then
      swap_coin_to_pc a.amountIn st.coinVault st.pcVault
        st.pool.fees.swap_fee_numerator st.pool.fees.swap_fee_denominator
    else
      swap_pc_to_coin a.amountIn st.coinVault st.pcVault
        st.pool.fees.swap_fee_numerator st.pool.fees.swap_fee_denominator
  let _ ← req (a.minimumAmountOut ≤ amountOut) Err.SlippageExceeded
  let vaults ←
    if a.swapDirection = 0 then
      if amountOut ≤ st.pcVault then
        Except.ok (st.coinVault + a.amountIn, st.pcVault - amountOut)
      else Except.error Err.transferFailed
    else
      if amountOut ≤ st.coinVault then
        Except.ok (st.coinVault - amountOut, st.pcVault + a.amountIn)
      else Except.error Err.transferFailed
  let newNonce ← checkedAdd8 st.pool.nonce 1
  pure { st with
         pool := { st.pool with nonce := newNonce }
         coinVault := vaults.1
         pcVault := vaults.2 }

/-- A user operation against the pool. -/
inductive Op where
  | dep (a : DepositArgs)
  | wd (a : WithdrawArgs)
  | sw (a : SwapArgs)
deriving DecidableEq, Repr

/-- One state-changing transition. -/
def step (st : AmmState) : Op → Except Err AmmState
  | Op.dep a => depositStep st a
  | Op.wd a => withdrawStep st a
  | Op.sw a => swapStep st a

/-- A sequence of transitions; any failure aborts the run. -/
def runOps (st : AmmState) : List Op → Except Err AmmState
  | [] => Except.ok st
  | op :: rest => (step st op) >>= fun st1 => runOps st1 rest

/-- Which operations advance the nonce in the source: deposit and swap do,
withdraw does not. -/
def bumpsNonce : Op → Bool
  | Op.wd _ => false
  | _ => true

/-- Number of nonce-advancing operations in a run. -/
def countIncs (ops : List Op) : Nat := (ops.filter bumpsNonce).length

/-- `spl_token::ID` as an abstract identifier (src/tradium/src/constants.rs). -/
def SPL_TOKEN_PROGRAM_ID : Nat := 1

/-- `spl_token_2022::ID` as an abstract identifier
(src/tradium/src/constants.rs). -/
def SPL_TOKEN_2022_PROGRAM_ID : Nat := 2

/-- The `Tradium` account as Anchor `init` hands it to the handler: fully
zeroed. -/
def Tradium.zeroed : Tradium where
  status := 0
  nonce := 0
  order_num := 0
  depth := 0
  coin_decimals := 0
  pc_decimals := 0
  state := 0
  reset_flag := 0
  min_size := 0
  vol_max_cut_ratio := 0
  amount_wave := 0
  coin_lot_size := 0
  pc_lot_size := 0
  min_price_multiplier := 0
  max_price_multiplier := 0
  sys_decimal_value := 0
  fees :=
    { min_separate_numerator := 0, min_separate_denominator := 0
      trade_fee_numerator := 0, trade_fee_denominator := 0
      pnl_numerator := 0, pnl_denominator := 0
      swap_fee_numerator := 0, swap_fee_denominator := 0 }
  state_data_initialized := false
  coin_vault := 0
  pc_vault := 0
  coin_vault_mint := 0
  pc_vault_mint := 0
  lp_mint := 0
  coin_token_program := 0
  pc_token_program := 0
  whitelisted_transfer_hooks := List.replicate 10 0
  num_whitelisted_hooks := 0
  amm_owner := 0
  lp_amount := 0

/-- The caller-supplied accounts of `initialize_pool`. -/
structure InitArgs where
  coinTokenProgram : Nat
  pcTokenProgram : Nat
  coinMintKey : Nat
  pcMintKey : Nat
  lpMintKey : Nat
  coinVaultKey : Nat
  pcVaultKey : Nat
  coinMintDecimals : Nat
  pcMintDecimals : Nat
  poolBump : Nat
deriving DecidableEq, Repr

/-- `initialize_pool` (src/tradium/src/instructions/initialize_pool.rs,
lines 68-207): token-program validation, vault creation (state-neutral
here), then the field assignments of lines 168-196 on the zeroed account.
`DEFAULT_TRADE_FEE = 30`, `DEFAULT_OWNER_FEE = 5`,
`FEE_DENOMINATOR = 10000` come from src/tradium/src/constants.rs. -/
def initialize_pool (a : InitArgs) : Except Err Tradium := do
  let _ ← req (a.coinTokenProgram = SPL_TOKEN_PROGRAM_ID ∨
               a.coinTokenProgram = SPL_TOKEN_2022_PROGRAM_ID) Err.InvalidTokenProgram
  let _ ← req (a.pcTokenProgram = SPL_TOKEN_PROGRAM_ID ∨
               a.pcTokenProgram = SPL_TOKEN_2022_PROGRAM_ID) Err.InvalidTokenProgram
  pure { Tradium.zeroed with
         status := 1
         nonce := a.poolBump
         coin_decimals := a.coinMintDecimals
         pc_decimals := a.pcMintDecimals
         coin_vault_mint := a.coinMintKey
         pc_vault_mint := a.pcMintKey
         lp_mint := a.lpMintKey
         coin_vault := a.coinVaultKey
         pc_vault := a.pcVaultKey
         coin_token_program := a.coinTokenProgram
         pc_token_program := a.pcTokenProgram
         fees := { Tradium.zeroed.fees with
                   trade_fee_numerator := 30
                   trade_fee_denominator := 10000
                   swap_fee_numerator := 5
                   swap_fee_denominator := 10000 }
         whitelisted_transfer_hooks := List.replicate 10 0
         num_whitelisted_hooks := 0
         state_data_initialized := true }

/-- A live pool as after scenario S1 of the spec: reserves
`(1_000_000, 4_000_000)`, LP supply `2_000_000`, default swap fee
`5 / 10000`, both assets on the classic token program. -/
def poolS1 : Tradium :=
  { Tradium.zeroed with
    status := 1
    nonce := 3
    coin_decimals := 6
    pc_decimals := 6
    fees := { Tradium.zeroed.fees with
              trade_fee_numerator := 30
              trade_fee_denominator := 10000
              swap_fee_numerator := 5
              swap_fee_denominator := 10000 }
    coin_vault := 11
    pc_vault := 12
    coin_vault_mint := 14
    pc_vault_mint := 15
    lp_mint := 13
    coin_token_program := SPL_TOKEN_PROGRAM_ID
    pc_token_program := SPL_TOKEN_PROGRAM_ID
    state_data_initialized := true
    lp_amount := 2000000 }

/-- The S1 pool together with its live balances. -/
def stS1 : AmmState :=
  { pool := poolS1, coinVault := 1000000, pcVault := 4000000, lpSupply := 2000000 }

/-- Deposit arguments matching `poolS1`, scenario S2: `(500_000, 2_000_000)`. -/
def depS2 : DepositArgs :=
  { coinTokenProgram := SPL_TOKEN_PROGRAM_ID, pcTokenProgram := SPL_TOKEN_PROGRAM_ID
    coinVaultKey := 11, pcVaultKey := 12, lpMintKey := 13
    coinMintKey := 14, pcMintKey := 15
    amountCoin := 500000, amountPc := 2000000 }

/-- Swap arguments matching `poolS1`, scenario S4: `100_000` coin → pc. -/
def swS4 : SwapArgs :=
  { inputTokenProgram := SPL_TOKEN_PROGRAM_ID, outputTokenProgram := SPL_TOKEN_PROGRAM_ID
    amountIn := 100000, minimumAmountOut := 0, swapDirection := 0 }

/-- Withdraw arguments matching `poolS1`, scenario S6: burn the whole
supply. -/
def wdS6 : WithdrawArgs :=
  { coinTokenProgram := SPL_TOKEN_PROGRAM_ID, pcTokenProgram := SPL_TOKEN_PROGRAM_ID
    lpAmount := 2000000, userLpBalance := 2000000 }

/-- The S1 pool drained by the S6 withdraw-all: both vaults and the LP
supply at zero. -/
def stEmpty : AmmState :=
  { pool := poolS1, coinVault := 0, pcVault := 0, lpSupply := 0 }

/-- A swap of 2 units into the drained pool. -/
def swEmpty : SwapArgs :=
  { inputTokenProgram := SPL_TOKEN_PROGRAM_ID, outputTokenProgram := SPL_TOKEN_PROGRAM_ID
    amountIn := 2, minimumAmountOut := 0, swapDirection := 0 }

/-- The drained pool after the counterexample swap: gross input 2 entered,
output 0 left. -/
def stEmptyAfter : AmmState :=
  { pool := { poolS1 with nonce := 4 }, coinVault := 2, pcVault := 0, lpSupply := 0 }

/-- The S1 pool after the S4 swap of 100000 coin at fee 5/10000. -/
def stS4After : AmmState :=
  { pool := { poolS1 with nonce := 4 }
    coinVault := 1100000, pcVault := 3636529, lpSupply := 2000000 }

/-- The S1 pool after the S6 withdraw-all. -/
def stDrained : AmmState :=
  { pool := poolS1, coinVault := 0, pcVault := 0, lpSupply := 0 }

/-- The S1 pool after the S2 deposit. -/
def stS2After : AmmState :=
  { pool := { poolS1 with lp_amount := 3000000, nonce := 4 }
    coinVault := 1500000, pcVault := 6000000, lpSupply := 3000000 }

/-- The S1 pool marked with a non-Active status. -/
def stInactive : AmmState :=
  { pool := { poolS1 with status := 0 }
    coinVault := 1000000, pcVault := 4000000, lpSupply := 2000000 }

/-- Deposit arguments matching the S1 pool with both amounts zero. -/
def dep00 : DepositArgs :=
  { coinTokenProgram := SPL_TOKEN_PROGRAM_ID, pcTokenProgram := SPL_TOKEN_PROGRAM_ID
    coinVaultKey := 11, pcVaultKey := 12, lpMintKey := 13
    coinMintKey := 14, pcMintKey := 15
    amountCoin := 0, amountPc := 0 }

/-- Concrete arguments for `initialize_pool`: classic token program on the
coin side, extended on the pc side, 6 decimals each. -/
def initArgs0 : InitArgs :=
  { coinTokenProgram := SPL_TOKEN_PROGRAM_ID, pcTokenProgram := SPL_TOKEN_2022_PROGRAM_ID
    coinMintKey := 14, pcMintKey := 15, lpMintKey := 13
    coinVaultKey := 11, pcVaultKey := 12
    coinMintDecimals := 6, pcMintDecimals := 6, poolBump := 251 }

/-- The pool record `initialize_pool initArgs0` produces. -/
def pool0 : Tradium :=
  { Tradium.zeroed with
    status := 1
    nonce := 251
    coin_decimals := 6
    pc_decimals := 6
    coin_vault_mint := 14
    pc_vault_mint := 15
    lp_mint := 13
    coin_vault := 11
    pc_vault := 12
    coin_token_program := SPL_TOKEN_PROGRAM_ID
    pc_token_program := SPL_TOKEN_2022_PROGRAM_ID
    fees := { Tradium.zeroed.fees with
              trade_fee_numerator := 30
              trade_fee_denominator := 10000
              swap_fee_numerator := 5
              swap_fee_denominator := 10000 }
    whitelisted_transfer_hooks := List.replicate 10 0
    num_whitelisted_hooks := 0
    state_data_initialized := true }

/-- Concrete arguments for `initialize_pool` with mints declaring 20
decimals on each side. -/
def initArgs20 : InitArgs :=
  { coinTokenProgram := SPL_TOKEN_PROGRAM_ID, pcTokenProgram := SPL_TOKEN_PROGRAM_ID
    coinMintKey := 14, pcMintKey := 15, lpMintKey := 13
    coinVaultKey := 11, pcVaultKey := 12
    coinMintDecimals := 20, pcMintDecimals := 20, poolBump := 251 }

/-- The pool record `initialize_pool initArgs20` produces. -/
def pool20 : Tradium :=
  { Tradium.zeroed with
    status := 1
    nonce := 251
    coin_decimals := 20
    pc_decimals := 20
    coin_vault_mint := 14
    pc_vault_mint := 15
    lp_mint := 13
    coin_vault := 11
    pc_vault := 12
    coin_token_program := SPL_TOKEN_PROGRAM_ID
    pc_token_program := SPL_TOKEN_PROGRAM_ID
    fees := { Tradium.zeroed.fees with
              trade_fee_numerator := 30
              trade_fee_denominator := 10000
              swap_fee_numerator := 5
              swap_fee_denominator := 10000 }
    whitelisted_transfer_hooks := List.replicate 10 0
    num_whitelisted_hooks := 0
    state_data_initialized := true }

theorem ok_bind {α β : Type} (a : α) (f : α → Except Err β) :
    (Except.ok a >>= f) = f a := rfl

theorem error_bind {α β : Type} (e : Err) (f : α → Except Err β) :
    ((Except.error e : Except Err α) >>= f) = Except.error e := rfl

theorem req_true {c : Prop} [Decidable c] {e : Err} (h : c) :
    req c e = Except.ok () := by
  simp [req, h]

theorem bind_eq_ok {α β : Type} {x : Except Err α} {k : α → Except Err β} {v : β}
    (h : (x >>= k) = Except.ok v) : ∃ n, x = Except.ok n ∧ k n = Except.ok v := by
  cases x with
  | error e => rw [error_bind] at h; exact absurd h (by simp)
  | ok n => exact ⟨n, rfl, by rwa [ok_bind] at h⟩

theorem req_bind_ok {c : Prop} [Decidable c] {e : Err} {α : Type} {k : Unit → Except Err α}
    {v : α} (h : (req c e >>= k) = Except.ok v) : c ∧ k () = Except.ok v := by
  by_cases hc : c
  · refine ⟨hc, ?_⟩
    rwa [req_true hc, ok_bind] at h
  · rw [req, if_neg hc, error_bind] at h
    exact absurd h (by simp)

theorem checkedAdd_ok {a b n : Nat} (h : checkedAdd a b = Except.ok n) :
    n = a + b ∧ a + b < U64 := by
  rw [checkedAdd] at h
  by_cases hc : a + b < U64
  · rw [if_pos hc] at h
    exact ⟨(Except.ok.injEq _ _ ▸ h).symm, hc⟩
  · rw [if_neg hc] at h
    exact absurd h (by simp)

theorem checkedAdd8_ok {a b n : Nat} (h : checkedAdd8 a b = Except.ok n) :
    n = a + b ∧ a + b < 256 := by
  rw [checkedAdd8] at h
  by_cases hc : a + b < 256
  · rw [if_pos hc] at h
    exact ⟨(Except.ok.injEq _ _ ▸ h).symm, hc⟩
  · rw [if_neg hc] at h
    exact absurd h (by simp)

theorem pure_eq_ok {α : Type} {a v : α} (h : (pure a : Except Err α) = Except.ok v) :
    a = v := by
  simpa [pure, Except.pure] using h

theorem swap_pc_to_coin_eq (a cb pb fn fd : Nat) :
    swap_pc_to_coin a cb pb fn fd = swap_coin_to_pc a pb cb fn fd := rfl

theorem swap_kernel_inv {a Rin Rout fn fd out : Nat}
    (h : swap_coin_to_pc a Rin Rout fn fd = Except.ok out) :
    fn ≤ fd ∧ 0 < fd ∧ a * (fd - fn) < U64 ∧ Rin + a * (fd - fn) / fd < U64 ∧
      a * (fd - fn) / fd * Rout < U64 ∧ 0 < Rin + a * (fd - fn) / fd ∧
      out = a * (fd - fn) / fd * Rout / (Rin + a * (fd - fn) / fd) ∧ out ≤ Rout := by
  simp only [swap_coin_to_pc, checkedSub, checkedMul, checkedDiv, checkedAdd, req, bind,
    Except.bind, pure] at h
  by_cases h1 : fn ≤ fd
  · simp only [if_pos h1] at h
    by_cases h2 : a * (fd - fn) < U64
    · simp only [if_pos h2] at h
      by_cases h3 : fd = 0
      · simp only [if_pos h3] at h
        exact absurd h (by simp)
      · simp only [if_neg h3] at h
        by_cases h4 : Rin + a * (fd - fn) / fd < U64
        · simp only [if_pos h4] at h
          by_cases h5 : a * (fd - fn) / fd * Rout < U64
          · simp only [if_pos h5] at h
            by_cases h6 : Rin + a * (fd - fn) / fd = 0
            · simp only [if_pos h6] at h
              exact absurd h (by simp)
            · simp only [if_neg h6] at h
              by_cases h7 : a * (fd - fn) / fd * Rout / (Rin + a * (fd - fn) / fd) ≤ Rout
              · simp only [if_pos h7] at h
                simp only [Except.pure, Except.ok.injEq] at h
                exact ⟨h1, Nat.pos_of_ne_zero h3, h2, h4, h5, Nat.pos_of_ne_zero h6,
                  h.symm, h ▸ h7⟩
              · simp only [if_neg h7] at h
                exact absurd h (by simp)
          · simp only [if_neg h5] at h
            exact absurd h (by simp)
        · simp only [if_neg h4] at h
          exact absurd h (by simp)
    · simp only [if_neg h2] at h
      exact absurd h (by simp)
  · simp only [if_neg h1] at h
    exact absurd h (by simp)

theorem prod_after_swap_ge {Rin Rout net g out : Nat} (hg : net ≤ g)
    (hout : out = net * Rout / (Rin + net)) (hle : out ≤ Rout) :
    Rin * Rout ≤ (Rin + g) * (Rout - out) := by
  have hkey : out * (Rin + net) ≤ net * Rout := by
    rw [hout]; exact Nat.div_mul_le_self _ _
  obtain ⟨D, hD⟩ : ∃ D, Rout = D + out := ⟨Rout - out, by omega⟩
  subst hD
  have h8 : out * Rin ≤ net * D := by nlinarith [hkey]
  have h9 : net * D ≤ g * D := Nat.mul_le_mul_right D hg
  have h10 : (D + out) - out = D := by omega
  rw [h10]
  nlinarith [h8, h9]

theorem prod_after_swap_gt {Rin Rout net g out : Nat} (hg : net < g)
    (hRin : 0 < Rin) (hRout : 0 < Rout)
    (hout : out = net * Rout / (Rin + net)) (hle : out ≤ Rout) :
    Rin * Rout < (Rin + g) * (Rout - out) := by
  have hncb : 0 < Rin + net := by omega
  have hkey : out * (Rin + net) ≤ net * Rout := by
    rw [hout]; exact Nat.div_mul_le_self _ _
  have houtlt : out < Rout := by
    rw [hout]
    exact Nat.div_lt_of_lt_mul (by nlinarith)
  obtain ⟨D, hD, hDpos⟩ : ∃ D, Rout = D + out ∧ 0 < D := ⟨Rout - out, by omega, by omega⟩
  subst hD
  have h8 : out * Rin ≤ net * D := by nlinarith [hkey]
  have h9 : (net + 1) * D ≤ g * D := Nat.mul_le_mul_right D (by omega)
  have h10 : (D + out) - out = D := by omega
  rw [h10]
  nlinarith [h8, h9]

theorem swapStep_inv {st : AmmState} {a : SwapArgs} {st' : AmmState}
    (h : swapStep st a = Except.ok st') :
    0 < a.amountIn ∧ st'.lpSupply = st.lpSupply ∧
      ∃ out,
        ((a.swapDirection = 0 ∧
          swap_coin_to_pc a.amountIn st.coinVault st.pcVault
            st.pool.fees.swap_fee_numerator st.pool.fees.swap_fee_denominator = Except.ok out ∧
          st'.coinVault = st.coinVault + a.amountIn ∧ st'.pcVault = st.pcVault - out ∧
          out ≤ st.pcVault) ∨
         (a.swapDirection = 1 ∧
          swap_pc_to_coin a.amountIn st.coinVault st.pcVault
            st.pool.fees.swap_fee_numerator st.pool.fees.swap_fee_denominator = Except.ok out ∧
          st'.coinVault = st.coinVault - out ∧ st'.pcVault = st.pcVault + a.amountIn ∧
          out ≤ st.coinVault)) ∧
        st'.pool = { st.pool with nonce := st.pool.nonce + 1 } := by
  simp only [swapStep, req, bind, Except.bind, pure] at h
  by_cases h1 : a.swapDirection ≤ 1
  · simp only [if_pos h1] at h
    by_cases h2 : 0 < a.amountIn
    · simp only [if_pos h2] at h
      by_cases hd : a.swapDirection = 0
      · simp only [hd, if_pos rfl, reduceIte] at h
        by_cases h3 : a.inputTokenProgram = st.pool.coin_token_program
        · simp only [if_pos h3] at h
          by_cases h4 : a.outputTokenProgram = st.pool.pc_token_program
          · simp only [if_pos h4] at h
            cases hk : swap_coin_to_pc a.amountIn st.coinVault st.pcVault
                st.pool.fees.swap_fee_numerator st.pool.fees.swap_fee_denominator with
            | error e => rw [hk] at h; exact absurd h (by simp)
            | ok out =>
              rw [hk] at h
              simp only [] at h
              have hle := (swap_kernel_inv hk).2.2.2.2.2.2.2
              by_cases h5 : a.minimumAmountOut ≤ out
              · simp only [if_pos h5] at h
                simp only [if_pos hle] at h
                by_cases h6 : st.pool.nonce + 1 < 256
                · simp only [checkedAdd8, if_pos h6] at h
                  simp only [Except.pure, Except.ok.injEq] at h
                  subst h
                  exact ⟨h2, rfl, out, Or.inl ⟨hd, rfl, rfl, rfl, hle⟩, rfl⟩
                · simp only [checkedAdd8, if_neg h6] at h
                  exact absurd h (by simp)
              · simp only [if_neg h5] at h
                exact absurd h (by simp)
          · simp only [if_neg h4] at h
            exact absurd h (by simp)
        · simp only [if_neg h3] at h
          exact absurd h (by simp)
      · have hd1 : a.swapDirection = 1 := by omega
        simp only [if_neg hd] at h
        by_cases h3 : a.inputTokenProgram = st.pool.pc_token_program
        · simp only [if_pos h3] at h
          by_cases h4 : a.outputTokenProgram = st.pool.coin_token_program
          · simp only [if_pos h4] at h
            cases hk : swap_pc_to_coin a.amountIn st.coinVault st.pcVault
                st.pool.fees.swap_fee_numerator st.pool.fees.swap_fee_denominator with
            | error e => rw [hk] at h; exact absurd h (by simp)
            | ok out =>
              rw [hk] at h
              simp only [] at h
              have hk2 : swap_coin_to_pc a.amountIn st.pcVault st.coinVault
                  st.pool.fees.swap_fee_numerator st.pool.fees.swap_fee_denominator =
                  Except.ok out := by
                rw [← swap_pc_to_coin_eq]; exact hk
              have hle := (swap_kernel_inv hk2).2.2.2.2.2.2.2
              by_cases h5 : a.minimumAmountOut ≤ out
              · simp only [if_pos h5] at h
                simp only [if_pos hle] at h
                by_cases h6 : st.pool.nonce + 1 < 256
                · simp only [checkedAdd8, if_pos h6] at h
                  simp only [Except.pure, Except.ok.injEq] at h
                  subst h
                  exact ⟨h2, rfl, out, Or.inr ⟨hd1, rfl, rfl, rfl, hle⟩, rfl⟩
                · simp only [checkedAdd8, if_neg h6] at h
                  exact absurd h (by simp)
              · simp only [if_neg h5] at h
                exact absurd h (by simp)
          · simp only [if_neg h4] at h
            exact absurd h (by simp)
        · simp only [if_neg h3] at h
          exact absurd h (by simp)
    · simp only [if_neg h2] at h
      exact absurd h (by simp)
  · simp only [if_neg h1] at h
    exact absurd h (by simp)

/-- Claim C1 (amended): for every successful swap in either direction the
reserve product never decreases, and it strictly increases whenever
`fee_num > 0`, `amount_in_net > 0`, and both pre-swap reserves are
positive. -/
theorem claim_C1 {st : AmmState} {a : SwapArgs} {st' : AmmState}
    (h : swapStep st a = Except.ok st') :
    st.coinVault * st.pcVault ≤ st'.coinVault * st'.pcVault ∧
      (0 < st.pool.fees.swap_fee_numerator →
       0 < a.amountIn * (st.pool.fees.swap_fee_denominator - st.pool.fees.swap_fee_numerator) /
           st.pool.fees.swap_fee_denominator →
       0 < st.coinVault → 0 < st.pcVault →
       st.coinVault * st.pcVault < st'.coinVault * st'.pcVault) := by
  obtain ⟨hin, -, out, hcase, -⟩ := swapStep_inv h
  set fn := st.pool.fees.swap_fee_numerator with hfn
  set fd := st.pool.fees.swap_fee_denominator with hfd
  set g := a.amountIn with hg
  set net := g * (fd - fn) / fd with hnet
  rcases hcase with ⟨-, hk, hcv, hpv, hvault⟩ | ⟨-, hk, hcv, hpv, hvault⟩
  · have hi := swap_kernel_inv hk
    obtain ⟨hfnfd, hfdpos, -, -, -, -, hout, hle⟩ := hi
    have hgle : net ≤ g := by
      rw [hnet]
      calc g * (fd - fn) / fd ≤ g * fd / fd := by
            exact Nat.div_le_div_right (Nat.mul_le_mul_left g (by omega))
        _ = g := Nat.mul_div_cancel g hfdpos
    constructor
    · rw [hcv, hpv]
      exact prod_after_swap_ge hgle hout hle
    · intro hfnpos hnetpos hRc hRp
      have hglt : net < g := by
        rw [hnet]
        rw [Nat.div_lt_iff_lt_mul hfdpos]
        have hlt : fd - fn < fd := by omega
        exact mul_lt_mul_of_pos_left hlt hin
      rw [hcv, hpv]
      exact prod_after_swap_gt hglt hRc hRp hout hle
  · rw [swap_pc_to_coin_eq] at hk
    have hi := swap_kernel_inv hk
    obtain ⟨hfnfd, hfdpos, -, -, -, -, hout, hle⟩ := hi
    have hgle : net ≤ g := by
      rw [hnet]
      calc g * (fd - fn) / fd ≤ g * fd / fd := by
            exact Nat.div_le_div_right (Nat.mul_le_mul_left g (by omega))
        _ = g := Nat.mul_div_cancel g hfdpos
    constructor
    · rw [hcv, hpv]
      calc st.coinVault * st.pcVault = st.pcVault * st.coinVault := by ring
        _ ≤ (st.pcVault + g) * (st.coinVault - out) :=
            prod_after_swap_ge hgle hout hle
        _ = (st.coinVault - out) * (st.pcVault + g) := by ring
    · intro hfnpos hnetpos hRc hRp
      have hglt : net < g := by
        rw [hnet]
        rw [Nat.div_lt_iff_lt_mul hfdpos]
        have hlt : fd - fn < fd := by omega
        exact mul_lt_mul_of_pos_left hlt hin
      rw [hcv, hpv]
      calc st.coinVault * st.pcVault = st.pcVault * st.coinVault := by ring
        _ < (st.pcVault + g) * (st.coinVault - out) :=
            prod_after_swap_gt hglt hRp hRc hout hle
        _ = (st.coinVault - out) * (st.pcVault + g) := by ring

/-- Claim C1, counterexample to strictness: on the drained pool (both
reserves 0, reachable by scenario S6) a swap of 2 units succeeds with
`fee_num = 5 > 0` and `amount_in_net = 1 > 0`, yet the reserve product stays
at `0 = 0`; the strict inequality the claim asserts fails. -/
theorem claim_C1_counterexample :
    swapStep stEmpty swEmpty = Except.ok stEmptyAfter ∧
    0 < stEmpty.pool.fees.swap_fee_numerator ∧
    0 < swEmpty.amountIn *
        (stEmpty.pool.fees.swap_fee_denominator - stEmpty.pool.fees.swap_fee_numerator) /
        stEmpty.pool.fees.swap_fee_denominator ∧
    ¬ stEmpty.coinVault * stEmpty.pcVault < stEmptyAfter.coinVault * stEmptyAfter.pcVault := by
  decide

/-- Claim C1, witness: the S4 swap on the S1 pool strictly grows the
product. -/
theorem claim_C1_witness :
    stS1.coinVault * stS1.pcVault < stS4After.coinVault * stS4After.pcVault :=
  (@claim_C1 stS1 swS4 stS4After (by decide)).2
    (by decide) (by decide) (by decide) (by decide)

/-- Claim C2: for every successful swap in either direction the computed
output is exactly `floor(amount_in_net * R_out / (R_in + amount_in_net))`
with `amount_in_net = floor(amount_in * (fee_den - fee_num) / fee_den)`,
the output never exceeds the out-side reserve (the guard the code backs
with `InsufficientLiquidity`), and the S4 instance computes 363471. -/
theorem claim_C2 :
    (∀ amount_in R_in R_out fn fd out,
       swap_coin_to_pc amount_in R_in R_out fn fd = Except.ok out →
       out = amount_in * (fd - fn) / fd * R_out / (R_in + amount_in * (fd - fn) / fd) ∧
         out ≤ R_out) ∧
    (∀ amount_in R_in R_out fn fd out,
       swap_pc_to_coin amount_in R_out R_in fn fd = Except.ok out →
       out = amount_in * (fd - fn) / fd * R_out / (R_in + amount_in * (fd - fn) / fd) ∧
         out ≤ R_out) ∧
    swap_coin_to_pc 100000 1000000 4000000 5 10000 = Except.ok 363471 := by
  refine ⟨?_, ?_, by decide⟩
  · intro amount_in R_in R_out fn fd out h
    obtain ⟨-, -, -, -, -, -, hout, hle⟩ := swap_kernel_inv h
    exact ⟨hout, hle⟩
  · intro amount_in R_in R_out fn fd out h
    rw [swap_pc_to_coin_eq] at h
    obtain ⟨-, -, -, -, -, -, hout, hle⟩ := swap_kernel_inv h
    exact ⟨hout, hle⟩

/-- Claim C2, witness: the formula instantiated at the S4 swap. -/
theorem claim_C2_witness :
    363471 = 100000 * (10000 - 5) / 10000 * 4000000 /
        (1000000 + 100000 * (10000 - 5) / 10000) ∧ 363471 ≤ 4000000 :=
  claim_C2.1 100000 1000000 4000000 5 10000 363471 (by decide)

theorem withdraw_amounts_eval {Rc Rp l S : Nat} (hRc : Rc < U64) (hRp : Rp < U64)
    (hS64 : S < U64) (hlS : l ≤ S) (hS : 0 < S) :
    withdraw_amounts Rc Rp l S = Except.ok (Rc * l / S, Rp * l / S) := by
  have hl64 : l < U64 := lt_of_le_of_lt hlS hS64
  have hUU : U64 * U64 = U128 := by decide
  have h1 : Rc * l < U128 := by
    calc Rc * l < U64 * U64 := by
          exact Nat.mul_lt_mul_of_lt_of_le hRc (le_of_lt hl64) (by decide)
      _ = U128 := hUU
  have h2 : Rp * l < U128 := by
    calc Rp * l < U64 * U64 := by
          exact Nat.mul_lt_mul_of_lt_of_le hRp (le_of_lt hl64) (by decide)
      _ = U128 := hUU
  have hd1 : Rc * l / S ≤ Rc := by
    calc Rc * l / S ≤ Rc * S / S := Nat.div_le_div_right (Nat.mul_le_mul_left Rc hlS)
      _ = Rc := Nat.mul_div_cancel Rc hS
  have hd2 : Rp * l / S ≤ Rp := by
    calc Rp * l / S ≤ Rp * S / S := Nat.div_le_div_right (Nat.mul_le_mul_left Rp hlS)
      _ = Rp := Nat.mul_div_cancel Rp hS
  simp only [withdraw_amounts, checkedMul128, checkedDiv, bind, Except.bind, pure,
    if_pos h1, if_pos h2, if_neg (by omega : ¬ S = 0)]
  rw [Nat.mod_eq_of_lt (lt_of_le_of_lt hd1 hRc), Nat.mod_eq_of_lt (lt_of_le_of_lt hd2 hRp)]
  rfl

theorem mul_div_le_left {R l S : Nat} (hlS : l ≤ S) (hS : 0 < S) : R * l / S ≤ R := by
  calc R * l / S ≤ R * S / S := Nat.div_le_div_right (Nat.mul_le_mul_left R hlS)
    _ = R := Nat.mul_div_cancel R hS

/-- Claim C3 (amended): the withdraw redemption formula really is computed
with 128-bit intermediates and cannot overflow for a burn bounded by the
supply; but the swap and deposit pricing multiplications are 64-bit checked
operations, which abort with `MathOverflow` on concrete inputs whose final
result fits in u64. -/
theorem claim_C3 :
    (∀ Rc Rp l S, Rc < U64 → Rp < U64 → S < U64 → l ≤ S → 0 < S →
       withdraw_amounts Rc Rp l S = Except.ok (Rc * l / S, Rp * l / S)) ∧
    swap_coin_to_pc 18014398509481984 1 1 5 10000 = Except.error Err.MathOverflow ∧
    18014398509481984 * (10000 - 5) / 10000 < U64 ∧
    calculate_lp_tokens poolS1 8589934592 0 8589934592 1 8589934592 =
      Except.error Err.MathOverflow ∧
    8589934592 * 8589934592 / 8589934592 < U64 := by
  exact ⟨fun Rc Rp l S h1 h2 h3 h4 h5 => withdraw_amounts_eval h1 h2 h3 h4 h5,
    by decide, by decide, by decide, by decide⟩

/-- Claim C3, witness: the S6 withdraw amounts computed through the u128
path. -/
theorem claim_C3_witness :
    withdraw_amounts 1000000 4000000 2000000 2000000 = Except.ok (1000000, 4000000) := by
  have h := claim_C3.1 1000000 4000000 2000000 2000000
    (by decide) (by decide) (by decide) (by decide) (by decide)
  simpa using h

/-- Claim C3, counterexample: a coin-to-pc swap of `2 ^ 54` units at fee
5/10000 aborts with `MathOverflow` in the u64 fee multiplication although
the final output (at most 4000000) fits in u64. -/
theorem claim_C3_counterexample :
    swap_coin_to_pc 18014398509481984 1000000 4000000 5 10000 =
      Except.error Err.MathOverflow ∧
    18014398509481984 * (10000 - 5) / 10000 * 4000000 /
      (1000000 + 18014398509481984 * (10000 - 5) / 10000) < U64 := by
  decide

theorem calculate_lp_tokens_prop {pool : Tradium} {ac ap Rc Rp S : Nat}
    (hS : 0 < S) (hRc : 0 < Rc) (hRp : 0 < Rp)
    (hm1 : ac * S < U64) (hm2 : ap * S < U64) :
    calculate_lp_tokens pool ac ap Rc Rp S = Except.ok (min (ac * S / Rc) (ap * S / Rp)) := by
  have hRc' : ¬ Rc = 0 := by omega
  have hRp' : ¬ Rp = 0 := by omega
  rw [calculate_lp_tokens, if_neg (by omega : ¬ S = 0)]
  by_cases hac : 0 < ac
  · by_cases hap : 0 < ap
    · simp [checkedMul, checkedDiv, bind, Except.bind, pure, Except.pure,
        hm1, hm2, hRc', hRp', hRc, hRp, hac, hap]
    · have hap0 : ap = 0 := by omega
      subst hap0
      simp [checkedMul, checkedDiv, bind, Except.bind, pure, Except.pure,
        hm1, hRc', hRc, hac]
  · have hac0 : ac = 0 := by omega
    subst hac0
    by_cases hap : 0 < ap
    · simp [checkedMul, checkedDiv, bind, Except.bind, pure, Except.pure,
        hm2, hRp', hRp, hap]
    · have hap0 : ap = 0 := by omega
      subst hap0
      simp [checkedMul, checkedDiv, bind, Except.bind, pure, Except.pure]

/-- Claim C4 (amended): on a pool with positive supply and reserves, a
deposit mints exactly `min(floor(amount_coin*S/R_c), floor(amount_pc*S/R_p))`
shares and fails with `InsufficientLiquidityMinted` when that minimum is 0
and at least one amount is positive (a (0,0) deposit fails earlier with
`InvalidDepositAmount`); the S2 deposit mints exactly 1000000. -/
theorem claim_C4 :
    (∀ (st : AmmState) (a : DepositArgs),
       a.coinTokenProgram = st.pool.coin_token_program →
       a.pcTokenProgram = st.pool.pc_token_program →
       a.coinVaultKey = st.pool.coin_vault →
       a.pcVaultKey = st.pool.pc_vault →
       a.lpMintKey = st.pool.lp_mint →
       a.coinMintKey = st.pool.coin_vault_mint →
       a.pcMintKey = st.pool.pc_vault_mint →
       0 < st.lpSupply → 0 < st.coinVault → 0 < st.pcVault →
       (0 < a.amountCoin ∨ 0 < a.amountPc) →
       a.amountCoin * st.lpSupply < U64 → a.amountPc * st.lpSupply < U64 →
       st.pool.nonce + 1 < 256 →
       st.pool.lp_amount + min (a.amountCoin * st.lpSupply / st.coinVault)
           (a.amountPc * st.lpSupply / st.pcVault) < U64 →
       depositStep st a =
         if min (a.amountCoin * st.lpSupply / st.coinVault)
              (a.amountPc * st.lpSupply / st.pcVault) = 0 then
           Except.error Err.InsufficientLiquidityMinted
         else
           Except.ok
             { pool := { st.pool with
                         lp_amount := st.pool.lp_amount +
                           min (a.amountCoin * st.lpSupply / st.coinVault)
                             (a.amountPc * st.lpSupply / st.pcVault)
                         nonce := st.pool.nonce + 1 }
               coinVault := st.coinVault + a.amountCoin
               pcVault := st.pcVault + a.amountPc
               lpSupply := st.lpSupply +
                 min (a.amountCoin * st.lpSupply / st.coinVault)
                   (a.amountPc * st.lpSupply / st.pcVault) }) ∧
    depositStep stS1 depS2 =
      Except.ok { pool := { poolS1 with lp_amount := 3000000, nonce := 4 }
                  coinVault := 1500000, pcVault := 6000000, lpSupply := 3000000 } ∧
    min (depS2.amountCoin * stS1.lpSupply / stS1.coinVault)
        (depS2.amountPc * stS1.lpSupply / stS1.pcVault) = 1000000 := by
  refine ⟨?_, by decide, by decide⟩
  intro st a h1 h2 h3 h4 h5 h6 h7 hS hRc hRp hamt hm1 hm2 hnonce hlpamt
  simp only [depositStep, req_true hamt, req_true h1, req_true h2, req_true h3,
    req_true h4, req_true h5, req_true h6, req_true h7, ok_bind]
  rw [calculate_lp_tokens_prop hS hRc hRp hm1 hm2]
  simp only [ok_bind]
  by_cases hmin : min (a.amountCoin * st.lpSupply / st.coinVault)
      (a.amountPc * st.lpSupply / st.pcVault) = 0
  · rw [if_pos hmin]
    simp [req, hmin, error_bind]
  · rw [if_neg hmin]
    have hpos : 0 < min (a.amountCoin * st.lpSupply / st.coinVault)
        (a.amountPc * st.lpSupply / st.pcVault) := Nat.pos_of_ne_zero hmin
    simp only [req_true hpos, ok_bind, checkedAdd, if_pos hlpamt, checkedAdd8,
      if_pos hnonce]
    rfl

/-- Claim C4, witness: the general deposit formula instantiated at the S2
deposit. -/
theorem claim_C4_witness :
    depositStep stS1 depS2 =
      if min (depS2.amountCoin * stS1.lpSupply / stS1.coinVault)
           (depS2.amountPc * stS1.lpSupply / stS1.pcVault) = 0 then
        Except.error Err.InsufficientLiquidityMinted
      else
        Except.ok
          { pool := { stS1.pool with
                      lp_amount := stS1.pool.lp_amount +
                        min (depS2.amountCoin * stS1.lpSupply / stS1.coinVault)
                          (depS2.amountPc * stS1.lpSupply / stS1.pcVault)
                      nonce := stS1.pool.nonce + 1 }
            coinVault := stS1.coinVault + depS2.amountCoin
            pcVault := stS1.pcVault + depS2.amountPc
            lpSupply := stS1.lpSupply +
              min (depS2.amountCoin * stS1.lpSupply / stS1.coinVault)
                (depS2.amountPc * stS1.lpSupply / stS1.pcVault) } :=
  claim_C4.1 stS1 depS2 (by decide) (by decide) (by decide) (by decide) (by decide)
    (by decide) (by decide) (by decide) (by decide) (by decide) (by decide)
    (by decide) (by decide) (by decide) (by decide)

/-- Claim C4, counterexample: at amounts (0,0) the minimum is 0 but the
deposit fails with `InvalidDepositAmount`, not `InsufficientLiquidityMinted`
as the claim as stated requires. -/
theorem claim_C4_counterexample :
    min (dep00.amountCoin * stS1.lpSupply / stS1.coinVault)
        (dep00.amountPc * stS1.lpSupply / stS1.pcVault) = 0 ∧
    depositStep stS1 dep00 = Except.error Err.InvalidDepositAmount ∧
    depositStep stS1 dep00 ≠ Except.error Err.InsufficientLiquidityMinted := by
  decide

/-- Claim C5: a withdraw of `lp_amount > 0` returns exactly
`floor(R_c * lp_amount / S)` and `floor(R_p * lp_amount / S)` computed with
128-bit intermediates, and fails with `InsufficientWithdrawal` when either
amount is 0. -/
theorem claim_C5 :
    ∀ (st : AmmState) (a : WithdrawArgs),
      0 < a.lpAmount →
      a.lpAmount ≤ a.userLpBalance →
      a.coinTokenProgram = st.pool.coin_token_program →
      a.pcTokenProgram = st.pool.pc_token_program →
      a.userLpBalance ≤ st.lpSupply →
      st.lpSupply < U64 → st.coinVault < U64 → st.pcVault < U64 →
      withdrawStep st a =
        if st.coinVault * a.lpAmount / st.lpSupply = 0 ∨
           st.pcVault * a.lpAmount / st.lpSupply = 0 then
          Except.error Err.InsufficientWithdrawal
        else
          Except.ok { st with
            coinVault := st.coinVault - st.coinVault * a.lpAmount / st.lpSupply
            pcVault := st.pcVault - st.pcVault * a.lpAmount / st.lpSupply
            lpSupply := st.lpSupply - a.lpAmount } := by
  intro st a h0 hbal hp1 hp2 hsup hS64 hRc64 hRp64
  have hlS : a.lpAmount ≤ st.lpSupply := le_trans hbal hsup
  have hS : 0 < st.lpSupply := by omega
  have hc1 : st.coinVault * a.lpAmount / st.lpSupply ≤ st.coinVault :=
    mul_div_le_left hlS hS
  have hc2 : st.pcVault * a.lpAmount / st.lpSupply ≤ st.pcVault :=
    mul_div_le_left hlS hS
  simp only [withdrawStep, req_true h0, req_true hbal, req_true hp1, req_true hp2,
    req_true hS, ok_bind]
  rw [withdraw_amounts_eval hRc64 hRp64 hS64 hlS hS]
  simp only [ok_bind]
  by_cases hz1 : st.coinVault * a.lpAmount / st.lpSupply = 0
  · rw [if_pos (Or.inl hz1)]
    simp [req, hz1, error_bind]
  · by_cases hz2 : st.pcVault * a.lpAmount / st.lpSupply = 0
    · rw [if_pos (Or.inr hz2)]
      simp [req, Nat.pos_of_ne_zero hz1, hz2, error_bind, ok_bind]
    · rw [if_neg (by tauto)]
      simp only [req_true (Nat.pos_of_ne_zero hz1), req_true (Nat.pos_of_ne_zero hz2),
        req_true hc1, req_true hc2, ok_bind]
      rfl

/-- Claim C5, witness: the S6 withdraw-all on the S1 pool. -/
theorem claim_C5_witness :
    withdrawStep stS1 wdS6 =
      if stS1.coinVault * wdS6.lpAmount / stS1.lpSupply = 0 ∨
         stS1.pcVault * wdS6.lpAmount / stS1.lpSupply = 0 then
        Except.error Err.InsufficientWithdrawal
      else
        Except.ok { stS1 with
          coinVault := stS1.coinVault - stS1.coinVault * wdS6.lpAmount / stS1.lpSupply
          pcVault := stS1.pcVault - stS1.pcVault * wdS6.lpAmount / stS1.lpSupply
          lpSupply := stS1.lpSupply - wdS6.lpAmount } :=
  claim_C5 stS1 wdS6 (by decide) (by decide) (by decide) (by decide) (by decide)
    (by decide) (by decide) (by decide)

theorem depositStep_inv {st : AmmState} {a : DepositArgs} {st1 : AmmState}
    (h : depositStep st a = Except.ok st1) :
    ∃ lp, 0 < lp ∧
      st1 = { pool := { st.pool with
                        lp_amount := st.pool.lp_amount + lp
                        nonce := st.pool.nonce + 1 }
              coinVault := st.coinVault + a.amountCoin
              pcVault := st.pcVault + a.amountPc
              lpSupply := st.lpSupply + lp } := by
  simp only [depositStep] at h
  obtain ⟨-, h⟩ := req_bind_ok h
  obtain ⟨-, h⟩ := req_bind_ok h
  obtain ⟨-, h⟩ := req_bind_ok h
  obtain ⟨-, h⟩ := req_bind_ok h
  obtain ⟨-, h⟩ := req_bind_ok h
  obtain ⟨-, h⟩ := req_bind_ok h
  obtain ⟨-, h⟩ := req_bind_ok h
  obtain ⟨-, h⟩ := req_bind_ok h
  obtain ⟨lp, -, h⟩ := bind_eq_ok h
  obtain ⟨hpos, h⟩ := req_bind_ok h
  obtain ⟨nl, hnl, h⟩ := bind_eq_ok h
  obtain ⟨hnlv, -⟩ := checkedAdd_ok hnl
  obtain ⟨nn, hnn, h⟩ := bind_eq_ok h
  obtain ⟨hnnv, -⟩ := checkedAdd8_ok hnn
  have h := pure_eq_ok h
  subst hnlv hnnv
  exact ⟨lp, hpos, h.symm⟩

theorem withdrawStep_inv {st : AmmState} {a : WithdrawArgs} {st1 : AmmState}
    (h : withdrawStep st a = Except.ok st1) : st1.pool = st.pool := by
  simp only [withdrawStep] at h
  obtain ⟨-, h⟩ := req_bind_ok h
  obtain ⟨-, h⟩ := req_bind_ok h
  obtain ⟨-, h⟩ := req_bind_ok h
  obtain ⟨-, h⟩ := req_bind_ok h
  obtain ⟨-, h⟩ := req_bind_ok h
  obtain ⟨amounts, -, h⟩ := bind_eq_ok h
  obtain ⟨-, h⟩ := req_bind_ok h
  obtain ⟨-, h⟩ := req_bind_ok h
  obtain ⟨-, h⟩ := req_bind_ok h
  obtain ⟨-, h⟩ := req_bind_ok h
  have h := pure_eq_ok h
  rw [← h]

theorem step_nonce {st : AmmState} {op : Op} {st1 : AmmState}
    (h : step st op = Except.ok st1) :
    st1.pool.nonce = st.pool.nonce + (if bumpsNonce op then 1 else 0) := by
  cases op with
  | dep a =>
    obtain ⟨lp, -, hst⟩ := depositStep_inv h
    subst hst
    simp [bumpsNonce]
  | wd a =>
    have := withdrawStep_inv h
    simp [bumpsNonce, this]
  | sw a =>
    obtain ⟨-, -, -, -, hpool⟩ := swapStep_inv h
    simp [bumpsNonce, hpool]

/-- Claim C6 (amended): across any successful run, the nonce grows by
exactly the number of deposits and swaps; withdrawals leave it unchanged. -/
theorem claim_C6 :
    ∀ (ops : List Op) (st stf : AmmState), runOps st ops = Except.ok stf →
      stf.pool.nonce = st.pool.nonce + countIncs ops := by
  intro ops
  induction ops with
  | nil =>
    intro st stf h
    simp only [runOps] at h
    have h := pure_eq_ok h
    subst h
    simp [countIncs]
  | cons op rest ih =>
    intro st stf h
    simp only [runOps] at h
    obtain ⟨st1, hst1, h⟩ := bind_eq_ok h
    have h1 := step_nonce hst1
    have h2 := ih st1 stf h
    cases hb : bumpsNonce op <;>
      simp [countIncs, List.filter_cons, hb] at h1 h2 ⊢ <;> omega

/-- Claim C6, counterexample: one successful withdraw leaves the nonce
unchanged, so after `N = 1` operations the nonce is not `nonce0 + 1`. -/
theorem claim_C6_counterexample :
    runOps stS1 [Op.wd wdS6] = Except.ok stDrained ∧
    stDrained.pool.nonce = stS1.pool.nonce ∧
    stS1.pool.nonce + 1 ≠ stDrained.pool.nonce := by
  decide

/-- Claim C6, witness: one successful deposit advances the nonce by the
count of nonce-advancing operations. -/
theorem claim_C6_witness :
    runOps stS1 [Op.dep depS2] = Except.ok stS2After ∧
    stS2After.pool.nonce = stS1.pool.nonce + countIncs [Op.dep depS2] :=
  ⟨by decide, claim_C6 [Op.dep depS2] stS1 stS2After (by decide)⟩

/-- Claim C7: the handlers never check `pool.status`; deposit, swap, and
withdraw all succeed on a pool whose status is not Active, instead of
failing with `InvalidPoolState` as the claim requires. -/
theorem claim_C7 :
    stInactive.pool.status ≠ 1 ∧
    depositStep stInactive depS2 =
      Except.ok { pool := { poolS1 with status := 0, lp_amount := 3000000, nonce := 4 }
                  coinVault := 1500000, pcVault := 6000000, lpSupply := 3000000 } ∧
    swapStep stInactive swS4 =
      Except.ok { pool := { poolS1 with status := 0, nonce := 4 }
                  coinVault := 1100000, pcVault := 3636529, lpSupply := 2000000 } ∧
    withdrawStep stInactive wdS6 =
      Except.ok { pool := { poolS1 with status := 0 }
                  coinVault := 0, pcVault := 0, lpSupply := 0 } := by
  decide

theorem hook_scan_iff {wl : List Nat} {n p : Nat} (hn : n ≤ wl.length) :
    (∃ i < n, wl[i]?.getD 0 = p) ↔ p ∈ List.take n wl := by
  constructor
  · rintro ⟨i, hi, heq⟩
    have hil : i < wl.length := lt_of_lt_of_le hi hn
    rw [List.mem_take_iff_getElem]
    refine ⟨i, by omega, ?_⟩
    rw [List.getElem?_eq_getElem hil] at heq
    simpa using heq
  · intro hmem
    rw [List.mem_take_iff_getElem] at hmem
    obtain ⟨i, him, heq⟩ := hmem
    have hil : i < wl.length := by omega
    refine ⟨i, by omega, ?_⟩
    rw [List.getElem?_eq_getElem hil]
    simpa using heq

/-- Claim C8: for a Token-2022 mint declaring transfer hook `H`, the gate
admits exactly when the supplied hook argument is `some H` and `H` occurs in
the first `num_whitelisted_hooks` whitelist entries; with an empty whitelist
it always fails with `InvalidTransferHookProgram`. -/
theorem claim_C8 :
    ∀ (hookId : Nat) (wl : List Nat) (numWl : Nat) (hookProg : Option Nat),
      numWl ≤ wl.length →
      (validate_transfer_hook_program ⟨true, true, some hookId⟩ hookProg wl numWl = true ↔
        hookProg = some hookId ∧ hookId ∈ wl.take numWl) ∧
      (numWl = 0 →
        hookGateCheck ⟨true, true, some hookId⟩ hookProg wl numWl =
          Except.error Err.InvalidTransferHookProgram) := by
  intro hid wl n hookProg hn
  constructor
  · cases hookProg with
    | none => simp [validate_transfer_hook_program]
    | some p =>
      by_cases hp : p = hid
      · subst hp
        simp only [validate_transfer_hook_program]
        simp
        exact hook_scan_iff hn
      · simp [validate_transfer_hook_program, hp]
  · intro h0
    subst h0
    cases hookProg with
    | none => simp [hookGateCheck, req, validate_transfer_hook_program]
    | some p =>
      by_cases hp : p = hid
      · subst hp
        simp [hookGateCheck, req, validate_transfer_hook_program]
      · simp [hookGateCheck, req, validate_transfer_hook_program, hp]

/-- Claim C8, witness: the gate at a concrete whitelisted hook. -/
theorem claim_C8_witness :
    validate_transfer_hook_program ⟨true, true, some 7⟩ (some 7) [5, 7] 2 = true ↔
      (some 7 : Option Nat) = some 7 ∧ 7 ∈ List.take 2 [5, 7] :=
  (claim_C8 7 [5, 7] 2 (some 7) (by decide)).1

theorem newton_ge_sqrt {n x : Nat} (hx : 0 < x) : Nat.sqrt n ≤ (x + n / x) / 2 := by
  have hs : Nat.sqrt n * Nat.sqrt n ≤ n := Nat.sqrt_le n
  have h2 : Nat.sqrt n * Nat.sqrt n / x ≤ n / x := Nat.div_le_div_right hs
  have key : 2 * Nat.sqrt n ≤ x + Nat.sqrt n * Nat.sqrt n / x := by
    by_cases hxs : 2 * Nat.sqrt n ≤ x
    · exact le_trans hxs (Nat.le_add_right _ _)
    · push_neg at hxs
      have hq : 2 * Nat.sqrt n - x ≤ Nat.sqrt n * Nat.sqrt n / x := by
        rw [Nat.le_div_iff_mul_le hx]
        zify [hxs.le]
        nlinarith [sq_nonneg ((Nat.sqrt n : Int) - (x : Int))]
      calc 2 * Nat.sqrt n = x + (2 * Nat.sqrt n - x) := by omega
        _ ≤ x + Nat.sqrt n * Nat.sqrt n / x := Nat.add_le_add_left hq x
  calc Nat.sqrt n = 2 * Nat.sqrt n / 2 := by omega
    _ ≤ (x + Nat.sqrt n * Nat.sqrt n / x) / 2 := Nat.div_le_div_right key
    _ ≤ (x + n / x) / 2 := Nat.div_le_div_right (Nat.add_le_add_left h2 x)

theorem newton_lt_self {n x : Nat} (hgt : Nat.sqrt n < x) : (x + n / x) / 2 < x := by
  have hx : 0 < x := by omega
  have hnx : n < x * x := by
    calc n < (Nat.sqrt n + 1) * (Nat.sqrt n + 1) := Nat.lt_succ_sqrt n
      _ ≤ x * x := Nat.mul_le_mul hgt hgt
  have hdiv : n / x < x := by
    rw [Nat.div_lt_iff_lt_mul hx]
    exact hnx
  have hsum : x + n / x ≤ 2 * x - 1 := by omega
  calc (x + n / x) / 2 ≤ (2 * x - 1) / 2 := Nat.div_le_div_right hsum
    _ < x := by omega

theorem newton_no_wrap {n x : Nat} (hn64 : n < U64) (hspos : 0 < Nat.sqrt n)
    (hsx : Nat.sqrt n ≤ x) (hx63 : x ≤ 9223372036854775808) : x + n / x < U64 := by
  have hsle : Nat.sqrt n < 4294967296 := by
    rw [Nat.sqrt_lt]
    calc n < U64 := hn64
      _ = 4294967296 * 4294967296 := by decide
  have hq : n / x ≤ n / Nat.sqrt n := Nat.div_le_div_left hsx hspos
  have hns : n / Nat.sqrt n ≤ Nat.sqrt n + 2 := by
    have h1 : n ≤ Nat.sqrt n * (Nat.sqrt n + 2) := by
      calc n ≤ Nat.sqrt n * Nat.sqrt n + Nat.sqrt n + Nat.sqrt n := Nat.sqrt_le_add n
        _ = Nat.sqrt n * (Nat.sqrt n + 2) := by ring
    calc n / Nat.sqrt n ≤ Nat.sqrt n * (Nat.sqrt n + 2) / Nat.sqrt n :=
          Nat.div_le_div_right h1
      _ = Nat.sqrt n + 2 := Nat.mul_div_cancel_left _ hspos
  obtain ⟨q, hq1, hq2⟩ : ∃ q, q = n / x ∧ q ≤ Nat.sqrt n + 2 :=
    ⟨n / x, rfl, le_trans hq hns⟩
  rw [← hq1]
  have hU : U64 = 18446744073709551616 := rfl
  omega

theorem sqrtIter_eval {n : Nat} (hn : 0 < n) (hn64 : n < U64) :
    ∀ fuel x, x < fuel → Nat.sqrt n ≤ x → x ≤ 9223372036854775808 →
      sqrtIter fuel n x = Except.ok (Nat.sqrt n) := by
  intro fuel
  induction fuel with
  | zero => intro x hx _ _; exact absurd hx (Nat.not_lt_zero x)
  | succ fuel ih =>
    intro x hxf hsx hx63
    have hspos : 0 < Nat.sqrt n := Nat.sqrt_pos.mpr hn
    have hxpos : 0 < x := lt_of_lt_of_le hspos hsx
    rw [sqrtIter]
    rw [if_neg (by omega : ¬ x = 0)]
    rw [Nat.mod_eq_of_lt (newton_no_wrap hn64 hspos hsx hx63)]
    by_cases hyx : (x + n / x) / 2 < x
    · rw [if_pos hyx]
      exact ih ((x + n / x) / 2) (by omega) (newton_ge_sqrt hxpos) (by omega)
    · rw [if_neg hyx]
      have hxle : x ≤ Nat.sqrt n := by
        by_contra hgt
        push_neg at hgt
        exact hyx (newton_lt_self hgt)
      rw [le_antisymm hxle hsx]

/-- Claim C9 (amended): for every `n < 2 ^ 64 - 1` the Newton iteration of
`integer_sqrt` terminates with exactly the integer square root, so
`isqrt(n)^2 <= n < (isqrt(n)+1)^2`; at `n = 2 ^ 64 - 1` the first update
`x + 1` overflows u64 and the code aborts. -/
theorem claim_C9 :
    ∀ n : Nat, n < U64 - 1 →
      integer_sqrt n = Except.ok (Nat.sqrt n) ∧
      Nat.sqrt n * Nat.sqrt n ≤ n ∧ n < (Nat.sqrt n + 1) * (Nat.sqrt n + 1) := by
  intro n hn
  refine ⟨?_, Nat.sqrt_le n, Nat.lt_succ_sqrt n⟩
  by_cases h0 : n = 0
  · subst h0
    simp [integer_sqrt]
  · have hnpos : 0 < n := Nat.pos_of_ne_zero h0
    have hU : U64 = 18446744073709551616 := rfl
    have hn64 : n < U64 := by omega
    have hwrap : (n + 1) % U64 = n + 1 := Nat.mod_eq_of_lt (by omega)
    rw [integer_sqrt, if_neg h0]
    simp only [hwrap]
    by_cases hyn : (n + 1) / 2 < n
    · rw [if_pos hyn]
      have hstart : Nat.sqrt n ≤ (n + 1) / 2 := by
        have := @newton_ge_sqrt n n hnpos
        rwa [Nat.div_self hnpos] at this
      exact sqrtIter_eval hnpos hn64 n ((n + 1) / 2) hyn hstart (by omega)
    · rw [if_neg hyn]
      have hle : n ≤ Nat.sqrt n := by
        by_contra hgt
        push_neg at hgt
        have hb := newton_lt_self hgt
        rw [Nat.div_self hnpos] at hb
        exact hyn hb
      exact congrArg Except.ok (le_antisymm hle (Nat.sqrt_le_self n))

/-- Claim C9, counterexample: at `n = 2 ^ 64 - 1` the wrapped `x + 1`
reaches 0 and the division `n / x` panics, so the iteration is not total on
the u64 domain. -/
theorem claim_C9_counterexample :
    integer_sqrt (U64 - 1) = Except.error Err.runtimePanic := by decide

/-- Claim C9, witness: the exact square root of 4000000000000. -/
theorem claim_C9_witness :
    4000000000000 < U64 - 1 ∧
      integer_sqrt 4000000000000 = Except.ok (Nat.sqrt 4000000000000) ∧
      Nat.sqrt 4000000000000 * Nat.sqrt 4000000000000 ≤ 4000000000000 ∧
      4000000000000 < (Nat.sqrt 4000000000000 + 1) * (Nat.sqrt 4000000000000 + 1) :=
  ⟨by decide, claim_C9 4000000000000 (by decide)⟩

theorem normalize_zero_sys {amt d : Nat} (h : amt < U64) (hd20 : d < 20) :
    normalize_amount amt d 0 = Except.ok (amt / 10 ^ d) := by
  have hpow : 10 ^ d < U64 := by
    calc (10 : Nat) ^ d ≤ 10 ^ 19 := Nat.pow_le_pow_right (by norm_num) (by omega)
      _ < U64 := by decide
  by_cases hd : d = 0
  · subst hd
    have h1 : (1 : Nat) % U64 = 1 := by decide
    simp [normalize_amount, checkedMul, h1, h]
  · rw [normalize_amount, if_neg (by omega)]
    simp only [Nat.sub_zero]
    rw [Nat.mod_eq_of_lt hpow]
    rw [checkedDiv, if_neg (by positivity)]

/-- Claim C10 (amended): `initialize_pool` never assigns
`sys_decimal_value`, so the field stays 0; for declared token decimals up to
19 (where `10 ^ decimals` fits in u64) a genesis deposit therefore
normalizes each amount by floor-dividing it by `10 ^ decimals` before the
geometric mean, while for decimals of 20 or more the unchecked u64 power
wraps modulo `2 ^ 64` and the divisor is the wrapped value. -/
theorem claim_C10 :
    ∀ (a : InitArgs) (pool : Tradium), initialize_pool a = Except.ok pool →
      pool.sys_decimal_value = 0 ∧
      (∀ amt d, amt < U64 → d < 20 →
        normalize_amount amt d pool.sys_decimal_value = Except.ok (amt / 10 ^ d)) ∧
      (∀ ac ap Rc Rp, ac < U64 → ap < U64 →
        pool.coin_decimals < 20 → pool.pc_decimals < 20 →
        ac / 10 ^ pool.coin_decimals * (ap / 10 ^ pool.pc_decimals) < U64 →
        calculate_lp_tokens pool ac ap Rc Rp 0 =
          integer_sqrt (ac / 10 ^ pool.coin_decimals * (ap / 10 ^ pool.pc_decimals))) := by
  intro a pool h
  simp only [initialize_pool] at h
  obtain ⟨-, h⟩ := req_bind_ok h
  obtain ⟨-, h⟩ := req_bind_ok h
  have h := pure_eq_ok h
  subst h
  refine ⟨rfl, ?_, ?_⟩
  · intro amt d hamt hd20
    exact normalize_zero_sys hamt hd20
  · intro ac ap Rc Rp hac hap hdc hdp hprod
    rw [calculate_lp_tokens, if_pos rfl]
    show (do
      let cn ← normalize_amount ac a.coinMintDecimals 0
      let pn ← normalize_amount ap a.pcMintDecimals 0
      let m ← checkedMul cn pn
      integer_sqrt m) = _
    rw [normalize_zero_sys hac hdc, ok_bind, normalize_zero_sys hap hdp, ok_bind,
      checkedMul, if_pos hprod, ok_bind]

/-- Claim C10, witness: a freshly initialized pool has
`sys_decimal_value = 0` and normalizes 1000000 at 6 declared decimals
to 1. -/
theorem claim_C10_witness :
    initialize_pool initArgs0 = Except.ok pool0 ∧ pool0.sys_decimal_value = 0 ∧
      normalize_amount 1000000 6 pool0.sys_decimal_value = Except.ok 1 := by
  refine ⟨by decide, (claim_C10 initArgs0 pool0 (by decide)).1, ?_⟩
  have h := (claim_C10 initArgs0 pool0 (by decide)).2.1 1000000 6 (by decide) (by decide)
  simpa using h

/-- Claim C10, counterexample to the unrestricted normalization: a pool
initialized from a mint declaring 20 decimals has `sys_decimal_value = 0`,
but the genesis normalization of `10 ^ 19` units returns 1 (the Rust
`10_u64.pow(20)` wraps to 7766279631452241920), not
`10 ^ 19 / 10 ^ 20 = 0` as the claim as stated requires. -/
theorem claim_C10_counterexample :
    initialize_pool initArgs20 = Except.ok pool20 ∧
    pool20.sys_decimal_value = 0 ∧ pool20.coin_decimals = 20 ∧
    normalize_amount 10000000000000000000 pool20.coin_decimals
      pool20.sys_decimal_value = Except.ok 1 ∧
    normalize_amount 10000000000000000000 pool20.coin_decimals
        pool20.sys_decimal_value ≠
      Except.ok (10000000000000000000 / 10 ^ pool20.coin_decimals) := by
  decide
